import Mathlib

/-
Verification of the in-memory matching and session coordination core of the
SwipX backend (Node/Socket.IO). The repository concatenates several revisions
of the same server file; this development embeds the two relevant matching
algorithms:
  - the plain matcher of index.js (findMatch, processMatchingQueue,
    joinMatchingQueue with the flat one-token gate, the capacity-checked
    joinVideoRoom handler, and the legacy capacity-free joinVideoRoom handler
    of the second index.js revision);
  - the filtered matcher of the third revision (findMatchWithFilters,
    the filtered processMatchingQueue, joinMatchingQueue with the premium
    eight-token gate and the premium-only filter guard).
JavaScript Map objects are modelled as insertion-ordered association lists
(set replaces in place, otherwise appends; iteration is list order), the
Socket.IO registry io.sockets.sockets as a list of live socket ids, and the
users table rows touched by the token UPDATE statements as a small ledger map.
All operations are pure state transformers that also report an event list:
wire emissions (matchFound, matchingError, roomFull, ...) together with the
internal steps the temporal claims speak about (pool removal, match creation,
the awaited ledger debit).
-/

/-- Insertion-ordered map with string keys, as a JavaScript Map. -/
abbrev SMap (β : Type) := List (String × β)

/-- Lookup, as Map.prototype.get. -/
def mget {β : Type} : SMap β → String → Option β
  | [], _ => none
  | (k, v) :: rest, x => if x = k then some v else mget rest x

/-- Update or insert, as Map.prototype.set: an existing key is overwritten in
place, a new key is appended at the end (JavaScript insertion order). -/
def mset {β : Type} : SMap β → String → β → SMap β
  | [], k, v => [(k, v)]
  | (k0, v0) :: rest, k, v =>
    if k0 = k then (k, v) :: rest else (k0, v0) :: mset rest k v

/-- Removal, as Map.prototype.delete. -/
def mdel {β : Type} : SMap β → String → SMap β
  | [], _ => []
  | (k0, v0) :: rest, k =>
    if k0 = k then mdel rest k else (k0, v0) :: mdel rest k

/-- Membership, as Map.prototype.has. -/
def mhas {β : Type} (m : SMap β) (k : String) : Bool :=
  (mget m k).isSome

/-- Key uniqueness of a map; JavaScript Map objects satisfy it by
construction. -/
abbrev keysNodup {β : Type} (m : SMap β) : Prop :=
  (m.map Prod.fst).Nodup

/-- Cached profile fields of a connected user (socket.user), loaded by the
authentication middleware at connect time. -/
structure UserProfile where
  name : String
  age : Int
  country : String
  gender : String
  avatar_url : String
  is_premium : Bool
  tokens : Int
deriving Repr, DecidableEq

/-- Client matching preferences. A field that is none stands for an absent or
falsy (undefined, null, empty, zero) JavaScript value. -/
structure Prefs where
  gender : Option String
  country : Option String
  minAge : Option Int
  maxAge : Option Int
deriving Repr, DecidableEq

/-- Entry of the activeUsers map. -/
structure ActiveEntry where
  socketId : String
  user : UserProfile
deriving Repr, DecidableEq

/-- Entry of the waitingUsers map. -/
structure WaitingEntry where
  user : UserProfile
  preferences : Prefs
  socketId : String
  joinedAt : Nat
deriving Repr, DecidableEq

/-- Entry of the activeMatches map. -/
structure MatchEntry where
  user1Id : String
  user2Id : String
  roomId : String
  startedAt : Nat
deriving Repr, DecidableEq

/-- Entry of the rooms map. The maxParticipants field of the newer revisions
is never read by any handler and is not modelled. -/
structure Room where
  participants : List String
  matchId : String
  createdAt : Nat
deriving Repr, DecidableEq

/-- Row of the users table as far as the token UPDATE statements read and
write it. -/
structure DbRec where
  is_premium : Bool
  tokens : Int
deriving Repr, DecidableEq

/-- The shared in-memory state of the server plus the external store rows the
token debits touch. The liveSockets list models io.sockets.sockets and now
models Date.now. -/
structure ServerState where
  activeUsers : SMap ActiveEntry
  waitingUsers : SMap WaitingEntry
  activeMatches : SMap MatchEntry
  rooms : SMap Room
  liveSockets : List String
  db : SMap DbRec
  now : Nat
deriving Repr, DecidableEq

/-- Public profile fields sent to the partner in a matchFound payload. -/
structure PartnerInfo where
  id : String
  name : String
  age : Int
  country : String
  gender : String
  avatar_url : String
deriving Repr, DecidableEq

/-- Payload of a matchFound emission. -/
structure MatchPayload where
  matchId : String
  roomId : String
  partner : PartnerInfo
  isInitiator : Bool
deriving Repr, DecidableEq

/-- Observable steps of one operation: wire emissions plus the internal
events (pool removal, match creation, awaited ledger debit) that the temporal
claims are about. -/
inductive Ev where
  | matchingError (sock : String) (msg : String)
  | matchingStatus (sock : String)
  | matchFound (sock : String) (payload : MatchPayload)
  | roomFull (sock : String) (roomId : String)
  | roomReady (roomId : String) (matchId : String) (count : Nat)
  | poolRemove (userId : String)
  | matchCreate (matchId : String)
  | debitAwait (ids : List String) (amount : Int)
deriving Repr, DecidableEq

/-- Result of one handler invocation: new state, events in program order, and
the boolean the matchers return. -/
structure OpResult where
  state : ServerState
  events : List Ev
  matched : Bool
deriving Repr, DecidableEq

/-- Truthiness of an optional string field (undefined, null and the empty
string are falsy in JavaScript). -/
def truthyS : Option String → Bool
  | none => false
  | some s => s != ""

/-- JavaScript x or-default: a falsy value (absent or zero) falls back to the
default. -/
def iTruthyD : Option Int → Int → Int
  | none, d => d
  | some n, d => if n = 0 then d else n

/-- Normalisation of raw client preferences performed by the filtered
joinMatchingQueue handler: gender and country fall back to null, the age
bounds default to 18 and 100. -/
def v3_norm (p : Prefs) : Prefs :=
  { gender := match p.gender with
      | none => none
      | some s => if s = "" then none else some s
    country := match p.country with
      | none => none
      | some s => if s = "" then none else some s
    minAge := some (iTruthyD p.minAge 18)
    maxAge := some (iTruthyD p.maxAge 100) }

/-- One guarded rejection step of findMatchWithFilters for a string filter:
the filter only applies when it is set and truthy, and then rejects a
different value. -/
def sRejects (p : Option String) (v : String) : Bool :=
  match p with
  | none => false
  | some g => g != "" && v != g

/-- Comparison age less-than bound as JavaScript evaluates it: a comparison
against undefined is false. -/
def ltOpt (a : Int) (b : Option Int) : Bool :=
  match b with
  | none => false
  | some m => decide (a < m)

/-- Comparison age greater-than bound as JavaScript evaluates it. -/
def gtOpt (a : Int) (b : Option Int) : Bool :=
  match b with
  | none => false
  | some m => decide (m < a)

/-- One direction of the compatibility check of findMatchWithFilters: the
preferences of one side applied to the profile of the other. -/
def compatOneWay (p : Prefs) (u : UserProfile) : Bool :=
  !(sRejects p.gender u.gender) && !(sRejects p.country u.country) &&
    !(ltOpt u.age p.minAge || gtOpt u.age p.maxAge)

/-- The full isMatch computation of findMatchWithFilters: both directions
must accept. -/
def mutualCompat (a b : WaitingEntry) : Bool :=
  compatOneWay a.preferences b.user && compatOneWay b.preferences a.user

/-- Match identifier string built by every matcher. -/
def mkMatchId (u c : String) (t : Nat) : String :=
  "match-" ++ u ++ "-" ++ c ++ "-" ++ toString t

/-- Partner payload fields taken from a profile. -/
def pub (id : String) (u : UserProfile) : PartnerInfo :=
  ⟨id, u.name, u.age, u.country, u.gender, u.avatar_url⟩

/-- The guarded flat debit of the plain revision:
UPDATE users SET tokens = tokens - 1 WHERE id IN (ids) AND tokens > 0. -/
def debit1 (db : SMap DbRec) (ids : List String) : SMap DbRec :=
  db.map (fun kv =>
    (kv.1,
     if ids.contains kv.1 = true ∧ 0 < kv.2.tokens then
       ⟨kv.2.is_premium, kv.2.tokens - 1⟩
     else kv.2))

/-- The guarded premium debit of the filtered revision:
UPDATE users SET tokens = tokens - 8
WHERE id = ANY(ids) AND is_premium = true AND tokens >= 8. -/
def debit8 (db : SMap DbRec) (ids : List String) : SMap DbRec :=
  db.map (fun kv =>
    (kv.1,
     if ids.contains kv.1 = true ∧ kv.2.is_premium = true ∧ 8 ≤ kv.2.tokens then
       ⟨kv.2.is_premium, kv.2.tokens - 8⟩
     else kv.2))

/-- Candidate scan of the plain findMatch: first entry of the waiting map
that is another user, is registered in activeUsers, has a truthy socket id
and a live socket. Preferences are not consulted. -/
def v1_scan (s : ServerState) (userId : String) :
    List (String × WaitingEntry) → Option (String × WaitingEntry)
  | [] => none
  | (oid, od) :: rest =>
    if oid != userId && mhas s.activeUsers oid && od.socketId != "" &&
        s.liveSockets.contains od.socketId then
      some (oid, od)
    else v1_scan s userId rest

/-- Candidate scan of findMatchWithFilters: skips self and entries whose
session is gone or whose socket is dead, then takes the first mutually
compatible entry. -/
def v3_scan (s : ServerState) (userId : String) (wu : WaitingEntry) :
    List (String × WaitingEntry) → Option (String × WaitingEntry)
  | [] => none
  | (oid, od) :: rest =>
    if oid == userId then v3_scan s userId wu rest
    else if !(mhas s.activeUsers oid) || !(s.liveSockets.contains od.socketId) then
      v3_scan s userId wu rest
    else if mutualCompat wu od then some (oid, od)
    else v3_scan s userId wu rest

/-- Failure tail of the plain findMatch when the post-removal socket
validation fails: both captured waiting entries are re-added to the pool
(the activeMatches entry set just before is left in place) and the function
returns false. -/
def v1_readd (s : ServerState) (pool1 : SMap WaitingEntry)
    (matches1 : SMap MatchEntry) (evs : List Ev) (u c : String)
    (d1 d2 : Option WaitingEntry) : OpResult :=
  let p2 := match d1 with
    | some d => mset pool1 u d
    | none => pool1
  let p3 := match d2 with
    | some d => mset p2 c d
    | none => p2
  ⟨{ s with waitingUsers := p3, activeMatches := matches1 }, evs, false⟩

/-- The plain findMatch of index.js (complete revision, lines 1175-1315;
the first revision is the same function with a mangled log binding). Order of
effects: scan, remove both from the pool, store the active match, validate
both sockets, then either notify both sides and await the guarded debit, or
re-add both captured entries. -/
def findMatch (s : ServerState) (userId : String) : OpResult :=
  match mget s.waitingUsers userId with
  | none => ⟨s, [], false⟩
  | some waitingUser =>
    match v1_scan s userId s.waitingUsers with
    | none =>
      match mget s.activeUsers userId with
      | some us => ⟨s, [Ev.matchingStatus us.socketId], false⟩
      | none => ⟨s, [], false⟩
    | some (matchedUserId, matchedUserData) =>
      let matchId := mkMatchId userId matchedUserId s.now
      let roomId := "room-" ++ matchId
      let user1Data := mget s.waitingUsers userId
      let user2Data := mget s.waitingUsers matchedUserId
      let pool1 := mdel (mdel s.waitingUsers userId) matchedUserId
      let matches1 := mset s.activeMatches matchId
        ⟨userId, matchedUserId, roomId, s.now⟩
      let baseEvs := [Ev.poolRemove userId, Ev.poolRemove matchedUserId,
        Ev.matchCreate matchId]
      match mget s.activeUsers userId, mget s.activeUsers matchedUserId with
      | some a1, some a2 =>
        if s.liveSockets.contains a1.socketId &&
            s.liveSockets.contains a2.socketId then
          ⟨{ s with
              waitingUsers := pool1,
              activeMatches := matches1,
              db := debit1 s.db [userId, matchedUserId] },
            baseEvs ++
              [Ev.matchFound a1.socketId
                ⟨matchId, roomId, pub matchedUserId matchedUserData.user, true⟩,
               Ev.matchFound a2.socketId
                ⟨matchId, roomId, pub userId waitingUser.user, false⟩,
               Ev.debitAwait [userId, matchedUserId] 1],
            true⟩
        else v1_readd s pool1 matches1 baseEvs userId matchedUserId
          user1Data user2Data
      | _, _ => v1_readd s pool1 matches1 baseEvs userId matchedUserId
          user1Data user2Data

/-- findMatchWithFilters of the third revision. Order of effects: scan with
the mutual compatibility predicate, await the guarded premium debit when a
premium user is involved, then remove both from the pool, store the active
match, and notify both sides when both session lookups succeed. -/
def findMatchWithFilters (s : ServerState) (userId : String) : OpResult :=
  match mget s.waitingUsers userId with
  | none => ⟨s, [], false⟩
  | some waitingUser =>
    match v3_scan s userId waitingUser s.waitingUsers with
    | none => ⟨s, [], false⟩
    | some (matchedUserId, matchedUserData) =>
      let idsToDeduct :=
        (if waitingUser.user.is_premium then [userId] else []) ++
        (if matchedUserData.user.is_premium then [matchedUserId] else [])
      let db1 := if 0 < idsToDeduct.length then debit8 s.db idsToDeduct else s.db
      let debitEvs : List Ev :=
        if 0 < idsToDeduct.length then [Ev.debitAwait idsToDeduct 8] else []
      let matchId := mkMatchId userId matchedUserId s.now
      let roomId := "room-" ++ matchId
      let pool1 := mdel (mdel s.waitingUsers userId) matchedUserId
      let matches1 := mset s.activeMatches matchId
        ⟨userId, matchedUserId, roomId, s.now⟩
      let s1 := { s with
        db := db1, waitingUsers := pool1, activeMatches := matches1 }
      let evs0 := debitEvs ++ [Ev.poolRemove userId,
        Ev.poolRemove matchedUserId, Ev.matchCreate matchId]
      match mget s.activeUsers userId, mget s.activeUsers matchedUserId with
      | some a1, some a2 =>
        ⟨s1, evs0 ++
          [Ev.matchFound a1.socketId
            ⟨matchId, roomId, pub matchedUserId matchedUserData.user, true⟩,
           Ev.matchFound a2.socketId
            ⟨matchId, roomId, pub userId waitingUser.user, false⟩],
          true⟩
      | _, _ => ⟨s1, evs0, false⟩

/-- Loop body of the filtered processMatchingQueue: one findMatchWithFilters
attempt per snapshot user id still present in the pool. -/
def sweepGo (s : ServerState) : List String → ServerState × List Ev
  | [] => (s, [])
  | uid :: rest =>
    if mhas s.waitingUsers uid then
      let r := findMatchWithFilters s uid
      let t := sweepGo r.state rest
      (t.1, r.events ++ t.2)
    else sweepGo s rest

/-- The filtered processMatchingQueue of the third revision. -/
def processMatchingQueueFiltered (s : ServerState) : ServerState × List Ev :=
  if s.waitingUsers.length < 2 then (s, [])
  else sweepGo s (s.waitingUsers.map Prod.fst)

/-- Inner pairing loop of the plain processMatchingQueue for a fixed left
user over the remaining snapshot ids; returns the state, events and the
processed set, stopping at the first pairing (the break statement). -/
def v1_sweepInner (s : ServerState) (proc : List String) (u1 : String) :
    List String → ServerState × List Ev × List String
  | [] => (s, [], proc)
  | u2 :: rest =>
    if proc.contains u2 || !(mhas s.waitingUsers u2) then
      v1_sweepInner s proc u1 rest
    else
      match mget s.waitingUsers u1, mget s.waitingUsers u2 with
      | some d1, some d2 =>
        if mhas s.activeUsers u1 && mhas s.activeUsers u2 &&
            s.liveSockets.contains d1.socketId &&
            s.liveSockets.contains d2.socketId then
          let matchId := mkMatchId u1 u2 s.now
          let roomId := "room-" ++ matchId
          let pool1 := mdel (mdel s.waitingUsers u1) u2
          let proc1 := (proc ++ [u1]) ++ [u2]
          let matches1 := mset s.activeMatches matchId ⟨u1, u2, roomId, s.now⟩
          let s1 := { s with waitingUsers := pool1, activeMatches := matches1 }
          let baseEvs := [Ev.poolRemove u1, Ev.poolRemove u2,
            Ev.matchCreate matchId]
          match mget s1.activeUsers u1, mget s1.activeUsers u2 with
          | some a1, some a2 =>
            ({ s1 with db := debit1 s1.db [u1, u2] },
             baseEvs ++
               [Ev.matchFound a1.socketId ⟨matchId, roomId, pub u2 d2.user, true⟩,
                Ev.matchFound a2.socketId ⟨matchId, roomId, pub u1 d1.user, false⟩,
                Ev.debitAwait [u1, u2] 1],
             proc1)
          | _, _ => v1_sweepInner s1 proc1 u1 rest
        else v1_sweepInner s proc u1 rest
      | _, _ => v1_sweepInner s proc u1 rest

/-- Outer loop of the plain processMatchingQueue over the snapshot ids. -/
def v1_sweepOuter (s : ServerState) (proc : List String) :
    List String → ServerState × List Ev
  | [] => (s, [])
  | u1 :: rest =>
    if proc.contains u1 || !(mhas s.waitingUsers u1) then
      v1_sweepOuter s proc rest
    else
      let t := v1_sweepInner s proc u1 rest
      let t2 := v1_sweepOuter t.1 t.2.2 rest
      (t2.1, t.2.1 ++ t2.2)

/-- The plain processMatchingQueue of index.js: greedy left-to-right pairing
over a snapshot of the waiting ids. -/
def processMatchingQueue (s : ServerState) : ServerState × List Ev :=
  if s.waitingUsers.length < 2 then (s, [])
  else v1_sweepOuter s [] (s.waitingUsers.map Prod.fst)

/-- Error message of the plain joinMatchingQueue token gate. -/
def insufficientMsgV1 : String :=
  "Insufficient tokens. You need at least 1 token to start a video call."

/-- Error message of the filtered joinMatchingQueue premium token gate. -/
def insufficientMsgV3 : String :=
  "Insufficient tokens. Please recharge!"

/-- Error message of the filtered joinMatchingQueue filter guard for
free-tier users. -/
def filtersMsgV3 : String :=
  "Gender and Country filters are Premium features! Upgrade to Premium to use filters."

/-- Insert-and-match tail of the plain joinMatchingQueue: insert the waiting
entry, report searching, run findMatch, and on failure with a pool of at
least two run the full sweep. The additional sweep this revision schedules
with a one second timer is a separately scheduled task, not part of this
transition. -/
def v1_insertAndMatch (s : ServerState) (userId : String) (ae : ActiveEntry)
    (rawPrefs : Prefs) : OpResult :=
  let entry : WaitingEntry := ⟨ae.user, rawPrefs, ae.socketId, s.now⟩
  let s1 := { s with waitingUsers := mset s.waitingUsers userId entry }
  let r := findMatch s1 userId
  if r.matched then ⟨r.state, Ev.matchingStatus ae.socketId :: r.events, true⟩
  else if 2 ≤ r.state.waitingUsers.length then
    let t := processMatchingQueue r.state
    ⟨t.1, Ev.matchingStatus ae.socketId :: (r.events ++ t.2), false⟩
  else ⟨r.state, Ev.matchingStatus ae.socketId :: r.events, false⟩

/-- The plain joinMatchingQueue handler of index.js: every user needs a
cached balance of at least one token, regardless of tier. -/
def joinMatchingQueue (s : ServerState) (userId : String) (rawPrefs : Prefs) :
    OpResult :=
  match mget s.activeUsers userId with
  | none => ⟨s, [], false⟩
  | some ae =>
    if ae.user.tokens < 1 then
      ⟨s, [Ev.matchingError ae.socketId insufficientMsgV1], false⟩
    else v1_insertAndMatch s userId ae rawPrefs

/-- Insert-and-match tail of the filtered joinMatchingQueue. -/
def v3_insertAndMatch (s : ServerState) (userId : String) (ae : ActiveEntry)
    (rawPrefs : Prefs) : OpResult :=
  let entry : WaitingEntry := ⟨ae.user, v3_norm rawPrefs, ae.socketId, s.now⟩
  let s1 := { s with waitingUsers := mset s.waitingUsers userId entry }
  let r := findMatchWithFilters s1 userId
  if r.matched then ⟨r.state, Ev.matchingStatus ae.socketId :: r.events, true⟩
  else if 2 ≤ r.state.waitingUsers.length then
    let t := processMatchingQueueFiltered r.state
    ⟨t.1, Ev.matchingStatus ae.socketId :: (r.events ++ t.2), false⟩
  else ⟨r.state, Ev.matchingStatus ae.socketId :: r.events, false⟩

/-- The filtered joinMatchingQueue handler of the third revision: premium
users need a cached balance of at least eight tokens; free-tier users are
never balance-checked but are rejected when they request a gender or country
filter. -/
def joinMatchingQueueFiltered (s : ServerState) (userId : String)
    (rawPrefs : Prefs) : OpResult :=
  match mget s.activeUsers userId with
  | none => ⟨s, [], false⟩
  | some ae =>
    if ae.user.is_premium then
      if ae.user.tokens < 8 then
        ⟨s, [Ev.matchingError ae.socketId insufficientMsgV3], false⟩
      else v3_insertAndMatch s userId ae rawPrefs
    else
      if truthyS rawPrefs.gender || truthyS rawPrefs.country then
        ⟨s, [Ev.matchingError ae.socketId filtersMsgV3], false⟩
      else v3_insertAndMatch s userId ae rawPrefs

/-- The capacity-checked joinVideoRoom handler (first index.js revision):
reject a third distinct socket with roomFull, ignore a repeated join, add a
second participant and announce roomReady, or create the room with the caller
as sole participant. -/
def joinVideoRoom (s : ServerState) (sockId roomId matchId : String) :
    ServerState × List Ev :=
  match mget s.rooms roomId with
  | some room =>
    if 2 ≤ room.participants.length ∧ room.participants.contains sockId = false then
      (s, [Ev.roomFull sockId roomId])
    else if room.participants.contains sockId then (s, [])
    else if (room.participants ++ [sockId]).length = 2 then
      ({ s with
          rooms := mset s.rooms roomId
            ⟨room.participants ++ [sockId], room.matchId, room.createdAt⟩ },
       [Ev.roomReady roomId matchId 2])
    else
      ({ s with
          rooms := mset s.rooms roomId
            ⟨room.participants ++ [sockId], room.matchId, room.createdAt⟩ },
       [])
  | none =>
    ({ s with rooms := mset s.rooms roomId ⟨[sockId], matchId, s.now⟩ }, [])

/-- The legacy joinVideoRoom handler of the second index.js revision: no
capacity check and no repeat check, every join of an existing room appends
the socket and announces roomReady with the new count. -/
def joinVideoRoomLegacy (s : ServerState) (sockId roomId matchId : String) :
    ServerState × List Ev :=
  match mget s.rooms roomId with
  | some room =>
    let ps := room.participants ++ [sockId]
    ({ s with rooms := mset s.rooms roomId ⟨ps, room.matchId, room.createdAt⟩ },
     [Ev.roomReady roomId matchId ps.length])
  | none =>
    ({ s with rooms := mset s.rooms roomId ⟨[sockId], matchId, s.now⟩ }, [])

/-- Client-driven steps used to explore reachable states of the filtered
revision: a socket connection and a join-queue request. -/
inductive CEvent where
  | connect (userId sockId : String) (prof : UserProfile)
  | joinQueue (userId : String) (p : Prefs)
deriving Repr, DecidableEq

/-- Effect of one client step on the server state. -/
def stepEvent (s : ServerState) : CEvent → ServerState
  | CEvent.connect u sock prof =>
    { s with
      activeUsers := mset s.activeUsers u ⟨sock, prof⟩,
      liveSockets :=
        if s.liveSockets.contains sock then s.liveSockets
        else sock :: s.liveSockets }
  | CEvent.joinQueue u p => (joinMatchingQueueFiltered s u p).state

/-- Run a list of client steps, advancing the clock by one per step. -/
def runEvents : ServerState → List CEvent → ServerState
  | s, [] => s
  | s, e :: rest =>
    let s1 := stepEvent s e
    runEvents { s1 with now := s1.now + 1 } rest

/-- Number of active-match entries naming a given user on either side. -/
def matchesContaining (s : ServerState) (u : String) : Nat :=
  (s.activeMatches.filter
    (fun kv => kv.2.user1Id == u || kv.2.user2Id == u)).length

/-- A match entry pairs the two given users, in either order. -/
def pairsUsers (m : MatchEntry) (a b : String) : Prop :=
  (m.user1Id = a ∧ m.user2Id = b) ∨ (m.user1Id = b ∧ m.user2Id = a)

/-- Event classifiers used by the ordering claims. -/
def evIsRemove : Ev → Bool
  | Ev.poolRemove _ => true
  | _ => false

/-- Classifier for match creation events. -/
def evIsCreate : Ev → Bool
  | Ev.matchCreate _ => true
  | _ => false

/-- Classifier for in-memory mutation events (pool removal or match
creation). -/
def evIsMut (e : Ev) : Bool :=
  evIsRemove e || evIsCreate e

/-- Classifier for match notification emissions. -/
def evIsNotify : Ev → Bool
  | Ev.matchFound _ _ => true
  | _ => false

/-- Classifier for awaited ledger debits. -/
def evIsDebit : Ev → Bool
  | Ev.debitAwait _ _ => true
  | _ => false

/-- Classifier for matchingError emissions. -/
def evIsError : Ev → Bool
  | Ev.matchingError _ _ => true
  | _ => false

/-- Classifier for roomFull emissions. -/
def evIsRoomFull : Ev → Bool
  | Ev.roomFull _ _ => true
  | _ => false

/-- Every p event of the list occurs strictly before every q event: from the
first q event onward no p event appears. -/
def allPBefore (p q : Ev → Bool) (l : List Ev) : Bool :=
  (l.dropWhile (fun e => !q e)).all (fun e => !p e)

/-- The session liveness predicate the plain findMatch validates after the
pool removal: a registry entry whose socket is still connected. -/
def liveOk (s : ServerState) (x : String) : Bool :=
  match mget s.activeUsers x with
  | some ae => s.liveSockets.contains ae.socketId
  | none => false

/-- Free-tier profile used by the concrete scenarios. -/
def freeProf (nm : String) : UserProfile :=
  ⟨nm, 25, "IN", "male", "", false, 5⟩

/-- Premium profile used by the concrete scenarios. -/
def premProf : UserProfile :=
  ⟨"P", 30, "IN", "male", "", true, 100⟩

/-- Free-tier profile with an exhausted cached balance. -/
def brokeProf : UserProfile :=
  ⟨"Z", 25, "IN", "male", "", false, 0⟩

/-- Empty preferences object. -/
def noPrefs : Prefs := ⟨none, none, none, none⟩

/-- Empty server state at boot. -/
def initState : ServerState := ⟨[], [], [], [], [], [], 0⟩

/-- Client steps of the double-match scenario: three users connect, the first
two match, the first rejoins the queue without its first match being torn
down, and matches again with the third. -/
def c1Events : List CEvent :=
  [CEvent.connect "u1" "s1" (freeProf "A"),
   CEvent.connect "u2" "s2" (freeProf "B"),
   CEvent.connect "u3" "s3" (freeProf "C"),
   CEvent.joinQueue "u1" noPrefs,
   CEvent.joinQueue "u2" noPrefs,
   CEvent.joinQueue "u1" noPrefs,
   CEvent.joinQueue "u3" noPrefs]

/-- Preferences requesting a female partner. -/
def prefsFemale : Prefs := ⟨some "female", none, none, none⟩

/-- Female profile used by the concrete scenarios. -/
def femaleProf : UserProfile := ⟨"C", 25, "IN", "female", "", false, 5⟩

/-- C3 counterexample: the plain findMatch of index.js consults no
preferences at all, so a pairing attempt initiated for a user whose gender
filter rejects the only candidate still creates the match between them,
refuting the claim that no pairing attempt ever pairs two users while a
rejection holds. -/
def stC3 : ServerState :=
  ⟨[("u1", ⟨"s1", freeProf "A"⟩), ("u2", ⟨"s2", freeProf "B"⟩)],
   [("u1", ⟨freeProf "A", prefsFemale, "s1", 0⟩),
    ("u2", ⟨freeProf "B", noPrefs, "s2", 0⟩)],
   [], [], ["s1", "s2"], [], 5⟩

/-- Concrete pool for the C3 witness: u1 filters for female, u2 is male, u3
is female; the filtered matcher pairs u1 with u3 and the theorem shows the
created match cannot pair u1 with u2. -/
def stC3W : ServerState :=
  ⟨[("u1", ⟨"s1", freeProf "A"⟩), ("u2", ⟨"s2", freeProf "B"⟩),
    ("u3", ⟨"s3", femaleProf⟩)],
   [("u1", ⟨freeProf "A", prefsFemale, "s1", 0⟩),
    ("u2", ⟨freeProf "B", noPrefs, "s2", 0⟩),
    ("u3", ⟨femaleProf, noPrefs, "s3", 0⟩)],
   [], [], ["s1", "s2", "s3"], [], 9⟩

/-- State with one full room, used to refute C2 on the legacy handler. -/
def stC2 : ServerState :=
  ⟨[], [], [], [("r", ⟨["a", "b"], "m0", 0⟩)], [], [], 0⟩

/-- State with a half-occupied room, used by the C9 witness. -/
def stC9 : ServerState :=
  ⟨[], [], [("mX", ⟨"x1", "x2", "rX", 0⟩)], [("r", ⟨["a"], "m0", 0⟩)],
   [], [], 4⟩

/-- State with one connected free-tier user holding zero tokens. -/
def stC4 : ServerState :=
  ⟨[("u", ⟨"s1", brokeProf⟩)], [], [], [], ["s1"], [], 0⟩

/-- Connected premium user with three cached tokens, below the per-match
cost. -/
def premBrokeProf : UserProfile := ⟨"Q", 30, "IN", "male", "", true, 3⟩

/-- State for the C4 witness. -/
def stC4W : ServerState :=
  ⟨[("v", ⟨"s2", premBrokeProf⟩)], [], [], [], ["s2"], [], 0⟩

/-- Concrete ledger for the C7 witness: one premium row above the cost, one
premium row below it. -/
def dbW : SMap DbRec := [("a", ⟨true, 10⟩), ("b", ⟨true, 4⟩)]

/-- State with a premium initiator and a free candidate, both live, used to
refute the claimed mutation-before-debit ordering on the filtered matcher. -/
def stC5 : ServerState :=
  ⟨[("u1", ⟨"s1", premProf⟩), ("u2", ⟨"s2", freeProf "B"⟩)],
   [("u1", ⟨premProf, v3_norm noPrefs, "s1", 0⟩),
    ("u2", ⟨freeProf "B", v3_norm noPrefs, "s2", 0⟩)],
   [], [], ["s1", "s2"], [("u1", ⟨true, 100⟩), ("u2", ⟨false, 5⟩)], 7⟩

/-- State with two live free users, used by the C5 witness on the plain
matcher. -/
def stC5W : ServerState :=
  ⟨[("u1", ⟨"s1", freeProf "A"⟩), ("u2", ⟨"s2", freeProf "B"⟩)],
   [("u1", ⟨freeProf "A", noPrefs, "s1", 0⟩),
    ("u2", ⟨freeProf "B", noPrefs, "s2", 0⟩)],
   [], [], ["s1", "s2"], [], 3⟩

/-- State in which the initiator is registered but its socket has vanished
while the candidate is fully live. -/
def stC6 : ServerState :=
  ⟨[("u1", ⟨"s1", freeProf "A"⟩), ("u2", ⟨"s2", freeProf "B"⟩)],
   [("u1", ⟨freeProf "A", noPrefs, "s1", 0⟩),
    ("u2", ⟨freeProf "B", noPrefs, "s2", 0⟩)],
   [], [], ["s2"], [], 4⟩

/-- State whose initiating user is waiting but no longer registered in
activeUsers, while the candidate is fully live. -/
def stC8 : ServerState :=
  ⟨[("u2", ⟨"s2", freeProf "B"⟩)],
   [("u1", ⟨freeProf "A", noPrefs, "s1", 0⟩),
    ("u2", ⟨freeProf "B", noPrefs, "s2", 0⟩)],
   [], [], ["s2"], [], 6⟩

/-- State with two live free users for the C8 witness. -/
def stC8W : ServerState :=
  ⟨[("w1", ⟨"t1", freeProf "A"⟩), ("w2", ⟨"t2", freeProf "B"⟩)],
   [("w1", ⟨freeProf "A", noPrefs, "t1", 0⟩),
    ("w2", ⟨freeProf "B", noPrefs, "t2", 0⟩)],
   [], [], ["t1", "t2"], [], 11⟩

/-- Classifier for join-queue client steps. -/
def isJoinEvent : CEvent → Bool
  | CEvent.joinQueue _ _ => true
  | CEvent.connect _ _ _ => false

/-- Connected premium user with a healthy cached balance. -/
def stC10 : ServerState :=
  ⟨[("g", ⟨"q1", premProf⟩)], [], [], [], ["q1"], [("g", ⟨true, 100⟩)], 0⟩

/-- External store row set for the C10 witness: the stored balance of the
same user is exhausted. -/
def dbExhausted : SMap DbRec := [("g", ⟨true, 0⟩)]

/-- Lookup after update at the same key. -/
theorem mget_mset_self {β : Type} (m : SMap β) (k : String) (v : β) :
    mget (mset m k v) k = some v := by
  induction m with
  | nil => simp [mset, mget]
  | cons kv rest ih =>
    obtain ⟨k0, v0⟩ := kv
    by_cases h : k0 = k
    · simp [mset, h, mget]
    · simp [mset, h, mget, Ne.symm h, ih]

/-- Lookup after update at a different key. -/
theorem mget_mset_ne {β : Type} (m : SMap β) (k x : String) (v : β)
    (h : x ≠ k) : mget (mset m k v) x = mget m x := by
  induction m with
  | nil => simp [mset, mget, h]
  | cons kv rest ih =>
    obtain ⟨k0, v0⟩ := kv
    by_cases h0 : k0 = k
    · subst h0
      simp [mset, mget, h]
    · by_cases h1 : x = k0
      · simp [mset, h0, mget, h1]
      · simp [mset, h0, mget, h1, ih]

/-- Lookup after removal. -/
theorem mget_mdel {β : Type} (m : SMap β) (k x : String) :
    mget (mdel m k) x = if x = k then none else mget m x := by
  induction m with
  | nil => simp [mdel, mget]
  | cons kv rest ih =>
    obtain ⟨k0, v0⟩ := kv
    by_cases h0 : k0 = k
    · subst h0
      rw [show mdel ((k0, v0) :: rest) k0 = mdel rest k0 from by simp [mdel], ih]
      by_cases h1 : x = k0
      · simp [h1]
      · simp [h1, mget]
    · rw [show mdel ((k0, v0) :: rest) k = (k0, v0) :: mdel rest k from by
        simp [mdel, h0]]
      by_cases h1 : x = k0
      · subst h1
        simp [mget, h0]
      · simp [mget, h1, ih]

/-- A successful lookup exhibits a member of the list. -/
theorem mem_of_mget {β : Type} (m : SMap β) (k : String) (v : β)
    (h : mget m k = some v) : (k, v) ∈ m := by
  induction m with
  | nil => simp [mget] at h
  | cons kv rest ih =>
    obtain ⟨k0, v0⟩ := kv
    by_cases h0 : k = k0
    · subst h0
      simp [mget] at h
      simp [h]
    · simp [mget, h0] at h
      exact List.mem_cons_of_mem _ (ih h)

/-- With unique keys, membership determines the lookup. -/
theorem mget_of_mem {β : Type} (m : SMap β) (k : String) (v : β)
    (hn : keysNodup m) (h : (k, v) ∈ m) : mget m k = some v := by
  induction m with
  | nil => simp at h
  | cons kv rest ih =>
    obtain ⟨k0, v0⟩ := kv
    simp only [keysNodup, List.map_cons, List.nodup_cons] at hn
    rcases List.mem_cons.mp h with h1 | h1
    · have hk : k = k0 := congrArg Prod.fst h1
      have hv : v = v0 := congrArg Prod.snd h1
      subst hk
      subst hv
      simp [mget]
    · have hk : k ≠ k0 := by
        intro he
        subst he
        exact hn.1 (List.mem_map.mpr ⟨(k, v), h1, rfl⟩)
      simp only [mget, if_neg hk]
      exact ih hn.2 h1

/-- An entry found in an updated map either is the update or was already
present. -/
theorem mget_mset_or {β : Type} (m : SMap β) (k x : String) (v w : β)
    (h : mget (mset m k v) x = some w) :
    (x = k ∧ w = v) ∨ mget m x = some w := by
  by_cases hx : x = k
  · subst hx
    rw [mget_mset_self] at h
    exact Or.inl ⟨rfl, (Option.some.injEq .. ▸ h).symm⟩
  · rw [mget_mset_ne m k x v hx] at h
    exact Or.inr h

/-- Removal keeps only entries of the original map. -/
theorem mdel_subset {β : Type} (m : SMap β) (k : String) : mdel m k ⊆ m := by
  induction m with
  | nil => simp [mdel]
  | cons kv rest ih =>
    obtain ⟨k0, v0⟩ := kv
    by_cases h0 : k0 = k
    · simp only [mdel, if_pos h0]
      exact ih.trans (List.subset_cons_self _ _)
    · simp only [mdel, if_neg h0]
      exact List.cons_subset_cons _ ih

/-- Removal preserves key uniqueness. -/
theorem keysNodup_mdel {β : Type} (m : SMap β) (k : String)
    (hn : keysNodup m) : keysNodup (mdel m k) := by
  induction m with
  | nil => simpa [mdel] using hn
  | cons kv rest ih =>
    obtain ⟨k0, v0⟩ := kv
    simp only [keysNodup, List.map_cons, List.nodup_cons] at hn
    by_cases h0 : k0 = k
    · simp only [mdel, if_pos h0]
      exact ih hn.2
    · simp only [keysNodup, mdel, if_neg h0, List.map_cons, List.nodup_cons]
      refine ⟨?_, ih hn.2⟩
      intro hmem
      rcases List.mem_map.mp hmem with ⟨⟨a, b⟩, ha, hab⟩
      exact hn.1 (List.mem_map.mpr ⟨(a, b), mdel_subset rest k ha, hab⟩)

/-- An entry surviving a removal was present before. -/
theorem mget_mdel_sub {β : Type} (m : SMap β) (k x : String) (v : β)
    (h : mget (mdel m k) x = some v) : mget m x = some v := by
  rw [mget_mdel] at h
  by_cases hx : x = k
  · simp [hx] at h
  · simpa [hx] using h

/-- The candidate the plain scan returns is a pool entry distinct from the
scanning user. -/
theorem v1_scan_spec (s : ServerState) (userId : String)
    (l : List (String × WaitingEntry)) (c : String) (cd : WaitingEntry)
    (h : v1_scan s userId l = some (c, cd)) :
    (c, cd) ∈ l ∧ c ≠ userId := by
  induction l with
  | nil => simp [v1_scan] at h
  | cons kv rest ih =>
    obtain ⟨oid, od⟩ := kv
    by_cases hc : (oid != userId && mhas s.activeUsers oid && od.socketId != "" &&
        s.liveSockets.contains od.socketId) = true
    · rw [v1_scan, if_pos hc] at h
      obtain ⟨h1, h2⟩ := Prod.mk.injEq .. ▸ Option.some.injEq .. ▸ h
      refine ⟨by simp [← h1, ← h2], ?_⟩
      subst h1
      have := (Bool.and_eq_true _ _ |>.mp
        ((Bool.and_eq_true _ _ |>.mp ((Bool.and_eq_true _ _ |>.mp hc).1)).1)).1
      simpa [bne_iff_ne] using this
    · rw [v1_scan, if_neg hc] at h
      obtain ⟨hm, hne⟩ := ih h
      exact ⟨List.mem_cons_of_mem _ hm, hne⟩

/-- The candidate the filtered scan returns is a pool entry distinct from the
scanning user and mutually compatible with it. -/
theorem v3_scan_spec (s : ServerState) (userId : String) (wu : WaitingEntry)
    (l : List (String × WaitingEntry)) (c : String) (cd : WaitingEntry)
    (h : v3_scan s userId wu l = some (c, cd)) :
    (c, cd) ∈ l ∧ c ≠ userId ∧ mutualCompat wu cd = true := by
  induction l with
  | nil => simp [v3_scan] at h
  | cons kv rest ih =>
    obtain ⟨oid, od⟩ := kv
    by_cases h1 : (oid == userId) = true
    · rw [v3_scan, if_pos h1] at h
      obtain ⟨hm, hne, hc⟩ := ih h
      exact ⟨List.mem_cons_of_mem _ hm, hne, hc⟩
    · by_cases h2 : (!(mhas s.activeUsers oid) || !(s.liveSockets.contains od.socketId)) = true
      · rw [v3_scan, if_neg h1, if_pos h2] at h
        obtain ⟨hm, hne, hc⟩ := ih h
        exact ⟨List.mem_cons_of_mem _ hm, hne, hc⟩
      · by_cases h3 : mutualCompat wu od = true
        · rw [v3_scan, if_neg h1, if_neg h2, if_pos h3] at h
          obtain ⟨hcEq, hdEq⟩ := Prod.mk.injEq .. ▸ Option.some.injEq .. ▸ h
          subst hcEq
          refine ⟨by simp [← hdEq], by simpa [beq_iff_eq] using h1, hdEq ▸ h3⟩
        · rw [v3_scan, if_neg h1, if_neg h2, if_neg h3] at h
          obtain ⟨hm, hne, hc⟩ := ih h
          exact ⟨List.mem_cons_of_mem _ hm, hne, hc⟩

/-- The filtered matcher never touches the session registry. -/
theorem fmwf_active_eq (s : ServerState) (x : String) :
    (findMatchWithFilters s x).state.activeUsers = s.activeUsers := by
  unfold findMatchWithFilters
  split
  · rfl
  · split
    · rfl
    · dsimp only
      split
      · rfl
      · rfl

/-- Every pool entry surviving a filtered pairing attempt was already in the
pool with the same content. -/
theorem fmwf_pool_sub (s : ServerState) (x u : String) (e : WaitingEntry)
    (h : mget (findMatchWithFilters s x).state.waitingUsers u = some e) :
    mget s.waitingUsers u = some e := by
  unfold findMatchWithFilters at h
  revert h
  split
  · exact fun h => h
  · split
    · exact fun h => h
    · dsimp only
      split
      · exact fun h => mget_mdel_sub _ _ _ _ (mget_mdel_sub _ _ _ _ h)
      · exact fun h => mget_mdel_sub _ _ _ _ (mget_mdel_sub _ _ _ _ h)

/-- A filtered pairing attempt preserves key uniqueness of the pool. -/
theorem fmwf_pool_nodup (s : ServerState) (x : String)
    (hn : keysNodup s.waitingUsers) :
    keysNodup (findMatchWithFilters s x).state.waitingUsers := by
  unfold findMatchWithFilters
  split
  · exact hn
  · split
    · exact hn
    · dsimp only
      split
      · exact keysNodup_mdel _ _ (keysNodup_mdel _ _ hn)
      · exact keysNodup_mdel _ _ (keysNodup_mdel _ _ hn)

/-- Every active match after a filtered pairing attempt either predates the
attempt or pairs the initiating user with a distinct, mutually compatible
pool entry. -/
theorem fmwf_match_src (s : ServerState) (x mid : String) (m : MatchEntry)
    (hn : keysNodup s.waitingUsers)
    (h : mget (findMatchWithFilters s x).state.activeMatches mid = some m) :
    mget s.activeMatches mid = some m ∨
    ∃ e1 e2, mget s.waitingUsers m.user1Id = some e1 ∧
      mget s.waitingUsers m.user2Id = some e2 ∧
      mutualCompat e1 e2 = true ∧ m.user1Id ≠ m.user2Id ∧ m.user1Id = x := by
  unfold findMatchWithFilters at h
  revert h
  split
  · exact fun h => Or.inl h
  · rename_i wu hw
    split
    · exact fun h => Or.inl h
    · rename_i c cd hs
      dsimp only
      have key : mget (mset s.activeMatches (mkMatchId x c s.now)
          ⟨x, c, "room-" ++ mkMatchId x c s.now, s.now⟩) mid = some m →
          mget s.activeMatches mid = some m ∨
          ∃ e1 e2, mget s.waitingUsers m.user1Id = some e1 ∧
            mget s.waitingUsers m.user2Id = some e2 ∧
            mutualCompat e1 e2 = true ∧ m.user1Id ≠ m.user2Id ∧ m.user1Id = x := by
        intro h
        rcases mget_mset_or _ _ _ _ _ h with ⟨hmid, hm⟩ | hold
        · subst hm
          obtain ⟨hmem, hne, hc⟩ := v3_scan_spec s x wu s.waitingUsers c cd hs
          exact Or.inr ⟨wu, cd, hw, mget_of_mem _ _ _ hn hmem, hc,
            fun he => hne he.symm, rfl⟩
        · exact Or.inl hold
      split
      · exact key
      · exact key

/-- Every active match after one pass of the filtered queue sweep either
predates the pass or pairs two distinct, mutually compatible entries of the
pool the pass started from. -/
theorem sweepGo_match_src (l : List String) (s : ServerState)
    (hn : keysNodup s.waitingUsers) (mid : String) (m : MatchEntry)
    (h : mget (sweepGo s l).1.activeMatches mid = some m) :
    mget s.activeMatches mid = some m ∨
    ∃ e1 e2, mget s.waitingUsers m.user1Id = some e1 ∧
      mget s.waitingUsers m.user2Id = some e2 ∧
      mutualCompat e1 e2 = true ∧ m.user1Id ≠ m.user2Id := by
  induction l generalizing s with
  | nil => exact Or.inl h
  | cons uid rest ih =>
    rw [sweepGo] at h
    by_cases hh : mhas s.waitingUsers uid = true
    · rw [if_pos hh] at h
      dsimp only at h
      rcases ih (findMatchWithFilters s uid).state (fmwf_pool_nodup s uid hn) h with
        h1 | ⟨e1, e2, h1, h2, hc, hne⟩
      · rcases fmwf_match_src s uid mid m hn h1 with h2 | ⟨e1, e2, g1, g2, gc, gne, _⟩
        · exact Or.inl h2
        · exact Or.inr ⟨e1, e2, g1, g2, gc, gne⟩
      · exact Or.inr ⟨e1, e2, fmwf_pool_sub s uid _ _ h1,
          fmwf_pool_sub s uid _ _ h2, hc, hne⟩
    · rw [if_neg hh] at h
      exact ih s hn h

/-- Every active match after the filtered processMatchingQueue either
predates the sweep or pairs two distinct, mutually compatible pool
entries. -/
theorem pmqFiltered_match_src (s : ServerState)
    (hn : keysNodup s.waitingUsers) (mid : String) (m : MatchEntry)
    (h : mget (processMatchingQueueFiltered s).1.activeMatches mid = some m) :
    mget s.activeMatches mid = some m ∨
    ∃ e1 e2, mget s.waitingUsers m.user1Id = some e1 ∧
      mget s.waitingUsers m.user2Id = some e2 ∧
      mutualCompat e1 e2 = true ∧ m.user1Id ≠ m.user2Id := by
  unfold processMatchingQueueFiltered at h
  by_cases hlen : s.waitingUsers.length < 2
  · rw [if_pos hlen] at h
    exact Or.inl h
  · rw [if_neg hlen] at h
    exact sweepGo_match_src _ s hn mid m h

/-- C1: no user identity is a member of two simultaneously active entries of
the active-match table. The code never consults activeMatches before creating
a match: after the client steps of c1Events (two users match, the first
rejoins the queue and matches a third user without the first match being torn
down), the first user is named by two entries that are simultaneously present
in activeMatches. This evaluates the filtered revision at the failing
input. -/
theorem c1_double_membership_eval :
    matchesContaining (runEvents initState c1Events) "u1" = 2 ∧
    ((runEvents initState c1Events).activeMatches.map
      (fun kv => (kv.2.user1Id, kv.2.user2Id))) = [("u2", "u1"), ("u3", "u1")] := by
  decide

/-- C3 is refuted on the plain matcher: user u1 requests gender female, the
candidate u2 is male, and findMatch pairs them anyway. -/
theorem c3_counterexample :
    compatOneWay prefsFemale (freeProf "B") = false ∧
    (findMatch stC3 "u1").matched = true ∧
    ((findMatch stC3 "u1").state.activeMatches.map
      (fun kv => (kv.2.user1Id, kv.2.user2Id))) = [("u1", "u2")] := by
  decide

/-- C3 (amended): in the filtered matcher, compatibility is evaluated in both
directions, so if the stored preferences of waiting user a reject the profile
of waiting user b, then no pairing attempt of findMatchWithFilters (for any
initiating user) and no pass of the filtered queue sweep creates a new Match
between a and b; an absent gender or country filter imposes no constraint and
absent age bounds default to 18 and 100 at enqueue time. The plain findMatch
of index.js ignores preferences entirely and is excluded. -/
theorem c3_filtered_symmetry (s : ServerState) (a b : String)
    (ea eb : WaitingEntry) (hn : keysNodup s.waitingUsers)
    (ha : mget s.waitingUsers a = some ea)
    (hb : mget s.waitingUsers b = some eb)
    (hrej : compatOneWay ea.preferences eb.user = false) :
    (∀ x mid m,
      mget (findMatchWithFilters s x).state.activeMatches mid = some m →
      mget s.activeMatches mid = none → ¬ pairsUsers m a b) ∧
    (∀ mid m,
      mget (processMatchingQueueFiltered s).1.activeMatches mid = some m →
      mget s.activeMatches mid = none → ¬ pairsUsers m a b) := by
  have main : ∀ (e1 e2 : WaitingEntry) (m : MatchEntry),
      mget s.waitingUsers m.user1Id = some e1 →
      mget s.waitingUsers m.user2Id = some e2 →
      mutualCompat e1 e2 = true → ¬ pairsUsers m a b := by
    intro e1 e2 m h1 h2 hc hp
    unfold mutualCompat at hc
    rw [Bool.and_eq_true] at hc
    rcases hp with ⟨hpa, hpb⟩ | ⟨hpa, hpb⟩
    · rw [hpa] at h1
      rw [hpb] at h2
      have he1 : ea = e1 := Option.some.inj (ha.symm.trans h1)
      have he2 : eb = e2 := Option.some.inj (hb.symm.trans h2)
      rw [← he1, ← he2] at hc
      rw [hrej] at hc
      exact Bool.false_ne_true hc.1
    · rw [hpa] at h1
      rw [hpb] at h2
      have he1 : eb = e1 := Option.some.inj (hb.symm.trans h1)
      have he2 : ea = e2 := Option.some.inj (ha.symm.trans h2)
      rw [← he1, ← he2] at hc
      rw [hrej] at hc
      exact Bool.false_ne_true hc.2
  constructor
  · intro x mid m hm hnew hp
    rcases fmwf_match_src s x mid m hn hm with hold | ⟨e1, e2, h1, h2, hc, _, _⟩
    · rw [hnew] at hold
      cases hold
    · exact main e1 e2 m h1 h2 hc hp
  · intro mid m hm hnew hp
    rcases pmqFiltered_match_src s hn mid m hm with hold | ⟨e1, e2, h1, h2, hc, _⟩
    · rw [hnew] at hold
      cases hold
    · exact main e1 e2 m h1 h2 hc hp

/-- Witness for C3 at a concrete pool. -/
theorem c3_filtered_symmetry_witness :
    ¬ pairsUsers ⟨"u1", "u3", "room-match-u1-u3-9", 9⟩ "u1" "u2" :=
  (c3_filtered_symmetry stC3W "u1" "u2"
      ⟨freeProf "A", prefsFemale, "s1", 0⟩ ⟨freeProf "B", noPrefs, "s2", 0⟩
      (by decide) (by decide) (by decide) (by decide)).1
    "u1" "match-u1-u3-9" ⟨"u1", "u3", "room-match-u1-u3-9", 9⟩
    (by decide) (by decide)

/-- C2 is refuted on the legacy joinVideoRoom handler of the second index.js
revision: joining a room that already has two participants with a third,
distinct socket appends the socket (count three) and answers roomReady with
count three instead of roomFull. -/
theorem c2_counterexample :
    (joinVideoRoomLegacy stC2 "c" "r" "m0").1.rooms =
      [("r", ⟨["a", "b", "c"], "m0", 0⟩)] ∧
    (joinVideoRoomLegacy stC2 "c" "r" "m0").2 = [Ev.roomReady "r" "m0" 3] := by
  decide

/-- C2 (amended): the capacity-checked joinVideoRoom handler answers roomFull
and leaves the state unchanged whenever the room already has two participants
and the caller is not among them, and it never raises any participant count
above two; the legacy handler of the second index.js revision performs no
such check and accepts a third participant. -/
theorem c2_room_capacity (s : ServerState) (sock rid mid : String) :
    (∀ room, mget s.rooms rid = some room → 2 ≤ room.participants.length →
      room.participants.contains sock = false →
      joinVideoRoom s sock rid mid = (s, [Ev.roomFull sock rid])) ∧
    (∀ r2 room2,
      (∀ room, mget s.rooms r2 = some room → room.participants.length ≤ 2) →
      mget (joinVideoRoom s sock rid mid).1.rooms r2 = some room2 →
      room2.participants.length ≤ 2) := by
  constructor
  · intro room hroom h2 hcont
    unfold joinVideoRoom
    rw [hroom]
    dsimp only
    rw [if_pos ⟨h2, hcont⟩]
  · intro r2 room2 hinv hpost
    unfold joinVideoRoom at hpost
    split at hpost
    · rename_i room hroom
      split_ifs at hpost with hc1 hc2 hc3
      · exact hinv room2 hpost
      · exact hinv room2 hpost
      · have hcontf : room.participants.contains sock = false :=
          Bool.eq_false_iff.mpr hc2
        have hlt : room.participants.length < 2 := by
          by_contra hge
          exact hc1 ⟨Nat.le_of_not_lt hge, hcontf⟩
        rcases mget_mset_or _ _ _ _ _ hpost with ⟨_, hv⟩ | hold
        · rw [hv]
          simp only [List.length_append, List.length_singleton]
          omega
        · exact hinv room2 hold
      · have hcontf : room.participants.contains sock = false :=
          Bool.eq_false_iff.mpr hc2
        have hlt : room.participants.length < 2 := by
          by_contra hge
          exact hc1 ⟨Nat.le_of_not_lt hge, hcontf⟩
        rcases mget_mset_or _ _ _ _ _ hpost with ⟨_, hv⟩ | hold
        · rw [hv]
          simp only [List.length_append, List.length_singleton]
          omega
        · exact hinv room2 hold
    · rename_i hroom
      rcases mget_mset_or _ _ _ _ _ hpost with ⟨_, hv⟩ | hold
      · rw [hv]
        simp
      · exact hinv room2 hold

/-- Witness for C2 at a concrete full room. -/
theorem c2_room_capacity_witness :
    joinVideoRoom stC2 "c" "r" "m0" = (stC2, [Ev.roomFull "c" "r"]) :=
  (c2_room_capacity stC2 "c" "r" "m0").1 ⟨["a", "b"], "m0", 0⟩
    (by decide) (by decide) (by decide)

/-- C9: joinVideoRoom never verifies that the caller is a party to the match
of the supplied room: if no room with the identifier exists a new room is
created with the caller as sole participant, if a room with one other
participant exists the caller is accepted as the second, and the whole
handler is insensitive to the content of the activeMatches table. -/
theorem c9_no_membership_check (s : ServerState) (sock rid mid : String) :
    (mget s.rooms rid = none →
      (joinVideoRoom s sock rid mid).1.rooms =
        mset s.rooms rid ⟨[sock], mid, s.now⟩ ∧
      (joinVideoRoom s sock rid mid).2 = []) ∧
    (∀ room p, mget s.rooms rid = some room → room.participants = [p] →
      room.participants.contains sock = false →
      ∃ room2, mget (joinVideoRoom s sock rid mid).1.rooms rid = some room2 ∧
        room2.participants = [p, sock]) ∧
    (∀ M : SMap MatchEntry,
      (joinVideoRoom { s with activeMatches := M } sock rid mid).1.rooms =
        (joinVideoRoom s sock rid mid).1.rooms ∧
      (joinVideoRoom { s with activeMatches := M } sock rid mid).2 =
        (joinVideoRoom s sock rid mid).2) := by
  refine ⟨?_, ?_, ?_⟩
  · intro hnone
    unfold joinVideoRoom
    rw [hnone]
    exact ⟨rfl, rfl⟩
  · intro room p hroom hp hcont
    unfold joinVideoRoom
    rw [hroom]
    dsimp only
    have hno : ¬(2 ≤ room.participants.length ∧
        room.participants.contains sock = false) := by
      intro hand
      have h1 := hand.1
      rw [hp] at h1
      simp only [List.length_singleton] at h1
      omega
    rw [if_neg hno, if_neg (by rw [hcont]; exact Bool.false_ne_true)]
    rw [hp]
    rw [if_pos (by simp)]
    exact ⟨⟨[p, sock], room.matchId, room.createdAt⟩, mget_mset_self _ _ _, rfl⟩
  · intro M
    obtain ⟨au, wu, am, rms, ls, db, now⟩ := s
    unfold joinVideoRoom
    dsimp only
    split
    · split_ifs <;> exact ⟨rfl, rfl⟩
    · exact ⟨rfl, rfl⟩

/-- Witness for C9: the caller is accepted as the second participant of a
room whose match does not name it. -/
theorem c9_no_membership_check_witness :
    ∃ room2, mget (joinVideoRoom stC9 "c" "r" "m0").1.rooms "r" = some room2 ∧
      room2.participants = ["a", "c"] :=
  (c9_no_membership_check stC9 "c" "r" "m0").2.1 ⟨["a"], "m0", 0⟩ "a"
    (by decide) (by decide) (by decide)

/-- C4 is refuted on the filtered revision: a free-tier user with zero cached
tokens (below the claimed one-token minimum) and no filters is inserted into
the waiting pool without any matchingError emission. -/
theorem c4_counterexample :
    brokeProf.tokens < 1 ∧
    (joinMatchingQueueFiltered stC4 "u" noPrefs).events.filter evIsError = [] ∧
    (mget (joinMatchingQueueFiltered stC4 "u" noPrefs).state.waitingUsers "u").isSome
      = true := by
  decide

/-- C4 (amended): the balance gate depends on the revision. In the filtered
revision, enqueue fails with the insufficient-tokens error and leaves the
state unchanged exactly when the user is premium with fewer than eight cached
tokens; free-tier users are never balance-checked but are rejected with a
distinct premium-upsell error when they request a gender or country filter;
in all other cases the handler proceeds to insert the user into the waiting
pool. In the plain revision every user, regardless of tier, is rejected
exactly when the cached balance is below one token. -/
theorem c4_balance_gate :
    (∀ s u p ae, mget s.activeUsers u = some ae →
      (ae.user.is_premium = true → ae.user.tokens < 8 →
        joinMatchingQueueFiltered s u p =
          ⟨s, [Ev.matchingError ae.socketId insufficientMsgV3], false⟩) ∧
      (ae.user.is_premium = false →
        (truthyS p.gender || truthyS p.country) = true →
        joinMatchingQueueFiltered s u p =
          ⟨s, [Ev.matchingError ae.socketId filtersMsgV3], false⟩) ∧
      ((ae.user.is_premium = true → 8 ≤ ae.user.tokens) →
       (ae.user.is_premium = false →
         (truthyS p.gender || truthyS p.country) = false) →
        joinMatchingQueueFiltered s u p = v3_insertAndMatch s u ae p ∧
        mget (mset s.waitingUsers u ⟨ae.user, v3_norm p, ae.socketId, s.now⟩) u =
          some ⟨ae.user, v3_norm p, ae.socketId, s.now⟩)) ∧
    (∀ s u p ae, mget s.activeUsers u = some ae →
      (ae.user.tokens < 1 →
        joinMatchingQueue s u p =
          ⟨s, [Ev.matchingError ae.socketId insufficientMsgV1], false⟩) ∧
      (1 ≤ ae.user.tokens →
        joinMatchingQueue s u p = v1_insertAndMatch s u ae p)) := by
  constructor
  · intro s u p ae hae
    refine ⟨?_, ?_, ?_⟩
    · intro hp ht
      simp only [joinMatchingQueueFiltered, hae, hp, if_true, if_pos ht]
    · intro hp hfil
      simp only [joinMatchingQueueFiltered, hae, hp, Bool.false_eq_true,
        if_false, hfil, if_true]
    · intro hbal hfil
      by_cases hp : ae.user.is_premium = true
      · have ht : ¬ ae.user.tokens < 8 := not_lt.mpr (hbal hp)
        refine ⟨?_, mget_mset_self _ _ _⟩
        simp only [joinMatchingQueueFiltered, hae, hp, if_true, if_neg ht]
      · have hp0 : ae.user.is_premium = false := Bool.eq_false_iff.mpr hp
        have hf0 : (truthyS p.gender || truthyS p.country) = false := hfil hp0
        refine ⟨?_, mget_mset_self _ _ _⟩
        simp only [joinMatchingQueueFiltered, hae, hp0, Bool.false_eq_true,
          if_false, hf0]
  · intro s u p ae hae
    constructor
    · intro ht
      simp only [joinMatchingQueue, hae, if_pos ht]
    · intro ht
      have ht0 : ¬ ae.user.tokens < 1 := not_lt.mpr ht
      simp only [joinMatchingQueue, hae, if_neg ht0]

/-- Witness for C4: a premium user below the eight-token cost is rejected
with the insufficient-tokens error and the state is unchanged. -/
theorem c4_balance_gate_witness :
    joinMatchingQueueFiltered stC4W "v" noPrefs =
      ⟨stC4W, [Ev.matchingError "s2" insufficientMsgV3], false⟩ :=
  ((c4_balance_gate.1 stC4W "v" noPrefs ⟨"s2", premBrokeProf⟩ (by decide)).1
    (by decide) (by decide))

/-- Pointwise characterisation of the guarded premium debit. -/
theorem mget_debit8 (db : SMap DbRec) (ids : List String) (k : String) :
    mget (debit8 db ids) k = (mget db k).map (fun r =>
      if ids.contains k = true ∧ r.is_premium = true ∧ 8 ≤ r.tokens then
        ⟨r.is_premium, r.tokens - 8⟩ else r) := by
  induction db with
  | nil => rfl
  | cons kv rest ih =>
    obtain ⟨k0, r0⟩ := kv
    by_cases hk : k = k0
    · subst hk
      simp [debit8, mget]
    · simp only [debit8, List.map_cons, mget, if_neg hk]
      simpa [debit8] using ih

/-- Pointwise characterisation of the guarded flat debit. -/
theorem mget_debit1 (db : SMap DbRec) (ids : List String) (k : String) :
    mget (debit1 db ids) k = (mget db k).map (fun r =>
      if ids.contains k = true ∧ 0 < r.tokens then
        ⟨r.is_premium, r.tokens - 1⟩ else r) := by
  induction db with
  | nil => rfl
  | cons kv rest ih =>
    obtain ⟨k0, r0⟩ := kv
    by_cases hk : k = k0
    · subst hk
      simp [debit1, mget]
    · simp only [debit1, List.map_cons, mget, if_neg hk]
      simpa [debit1] using ih

/-- The filtered candidate scan never reads the external store. -/
theorem v3_scan_db (s : ServerState) (d : SMap DbRec) (u : String)
    (wu : WaitingEntry) (l : List (String × WaitingEntry)) :
    v3_scan { s with db := d } u wu l = v3_scan s u wu l := by
  obtain ⟨au, wus, am, rm, ls, db0, now⟩ := s
  induction l with
  | nil => rfl
  | cons kv rest ih =>
    obtain ⟨oid, od⟩ := kv
    simp only [v3_scan, ih]

/-- C7: both token debits are guarded. The premium debit of the filtered
revision rewrites a row exactly when the row is premium with at least eight
tokens, so it never drives a non-negative balance negative and skips any
premium row below the per-match cost, leaving it unchanged; the flat debit of
the plain revision is likewise guarded by a positive balance; and whether the
filtered matcher creates and reports a match is independent of the external
store, so the match completes regardless of the debit. -/
theorem c7_guarded_debit :
    (∀ (db : SMap DbRec) (ids : List String) (k : String) (r : DbRec),
      mget db k = some r →
      mget (debit8 db ids) k = some
        (if ids.contains k = true ∧ r.is_premium = true ∧ 8 ≤ r.tokens then
          ⟨r.is_premium, r.tokens - 8⟩ else r)) ∧
    (∀ (db : SMap DbRec) (ids : List String) (k : String) (r : DbRec),
      mget db k = some r → 0 ≤ r.tokens →
      ∃ r2, mget (debit8 db ids) k = some r2 ∧ 0 ≤ r2.tokens) ∧
    (∀ (db : SMap DbRec) (ids : List String) (k : String) (r : DbRec),
      mget db k = some r → r.is_premium = true → r.tokens < 8 →
      mget (debit8 db ids) k = some r) ∧
    (∀ (db : SMap DbRec) (ids : List String) (k : String) (r : DbRec),
      mget db k = some r → 0 ≤ r.tokens →
      ∃ r2, mget (debit1 db ids) k = some r2 ∧ 0 ≤ r2.tokens) ∧
    (∀ (s : ServerState) (d : SMap DbRec) (u : String),
      (findMatchWithFilters { s with db := d } u).matched =
        (findMatchWithFilters s u).matched) := by
  refine ⟨?_, ?_, ?_, ?_, ?_⟩
  · intro db ids k r hr
    rw [mget_debit8, hr]
    rfl
  · intro db ids k r hr h0
    refine ⟨_, by rw [mget_debit8, hr]; rfl, ?_⟩
    dsimp only [Option.map]
    by_cases hc : ids.contains k = true ∧ r.is_premium = true ∧ 8 ≤ r.tokens
    · rw [if_pos hc]
      have h8 := hc.2.2
      show (0 : Int) ≤ r.tokens - 8
      omega
    · rw [if_neg hc]
      exact h0
  · intro db ids k r hr hp hlt
    rw [mget_debit8, hr]
    have hc : ¬(ids.contains k = true ∧ r.is_premium = true ∧ 8 ≤ r.tokens) := by
      intro hand
      exact absurd hand.2.2 (not_le.mpr hlt)
    dsimp only [Option.map]
    rw [if_neg hc]
  · intro db ids k r hr h0
    refine ⟨_, by rw [mget_debit1, hr]; rfl, ?_⟩
    dsimp only [Option.map]
    by_cases hc : ids.contains k = true ∧ 0 < r.tokens
    · rw [if_pos hc]
      have h1 := hc.2
      show (0 : Int) ≤ r.tokens - 1
      omega
    · rw [if_neg hc]
      exact h0
  · intro s d u
    obtain ⟨au, wus, am, rm, ls, db0, now⟩ := s
    unfold findMatchWithFilters
    dsimp only
    split
    · rfl
    · rename_i wu hw
      rw [v3_scan_db ⟨au, wus, am, rm, ls, db0, now⟩ d u wu]
      split
      · rfl
      · split
        · rfl
        · rfl

/-- Witness for C7: the guarded debit reduces the sufficient balance by eight
and leaves the insufficient premium balance untouched (never capping it to
zero or below). -/
theorem c7_guarded_debit_witness :
    mget (debit8 dbW ["a", "b"]) "a" = some ⟨true, 2⟩ ∧
    mget (debit8 dbW ["a", "b"]) "b" = some ⟨true, 4⟩ := by
  constructor
  · have h := c7_guarded_debit.1 dbW ["a", "b"] "a" ⟨true, 10⟩ (by decide)
    rw [if_pos (by decide)] at h
    exact h
  · exact c7_guarded_debit.2.2.1 dbW ["a", "b"] "b" ⟨true, 4⟩ (by decide)
      (by decide) (by decide)

/-- C5 is refuted on findMatchWithFilters: in a pairing attempt involving a
premium user the awaited ledger debit is the very first event, before either
user is removed from the waiting pool and before the match is created, so the
in-memory mutation does not precede the first debit await. -/
theorem c5_counterexample :
    (findMatchWithFilters stC5 "u1").matched = true ∧
    (findMatchWithFilters stC5 "u1").events.head? =
      some (Ev.debitAwait ["u1"] 8) ∧
    allPBefore evIsMut evIsDebit (findMatchWithFilters stC5 "u1").events
      = false := by
  decide

/-- C5 (amended): in every pairing attempt that creates a match, the removal
of both users from the pool and the match creation strictly precede the match
notifications. In the plain findMatch the notifications in turn strictly
precede the awaited ledger debit, so every pool and match mutation precedes
the debit; in findMatchWithFilters the awaited debit, when one is issued,
instead precedes every pool and match mutation. -/
theorem c5_event_order :
    (∀ s u, (findMatch s u).matched = true →
      allPBefore evIsMut evIsNotify (findMatch s u).events = true ∧
      allPBefore evIsNotify evIsDebit (findMatch s u).events = true ∧
      allPBefore evIsMut evIsDebit (findMatch s u).events = true) ∧
    (∀ s u, (findMatchWithFilters s u).matched = true →
      allPBefore evIsMut evIsNotify (findMatchWithFilters s u).events = true ∧
      allPBefore evIsDebit evIsMut (findMatchWithFilters s u).events = true) := by
  constructor
  · intro s u
    unfold findMatch
    split
    · intro h
      simp at h
    · split
      · split
        · intro h
          simp at h
        · intro h
          simp at h
      · dsimp only
        split
        · split
          · intro _
            refine ⟨?_, ?_, ?_⟩ <;>
              simp [allPBefore, evIsMut, evIsRemove, evIsCreate, evIsNotify,
                evIsDebit, List.dropWhile, List.all_cons]
          · intro h
            simp [v1_readd] at h
        · intro h
          simp [v1_readd] at h
  · intro s u
    unfold findMatchWithFilters
    split
    · intro h
      simp at h
    · split
      · intro h
        simp at h
      · dsimp only
        split
        · intro _
          refine ⟨?_, ?_⟩ <;>
          · split_ifs <;>
              simp [allPBefore, evIsMut, evIsRemove, evIsCreate, evIsNotify,
                evIsDebit, List.dropWhile, List.all_cons]
        · intro h
          simp at h

/-- Witness for C5: in a successful plain pairing attempt every pool and
match mutation precedes the notifications, which precede the awaited
debit. -/
theorem c5_event_order_witness :
    allPBefore evIsMut evIsNotify (findMatch stC5W "u1").events = true ∧
    allPBefore evIsNotify evIsDebit (findMatch stC5W "u1").events = true ∧
    allPBefore evIsMut evIsDebit (findMatch stC5W "u1").events = true :=
  c5_event_order.1 stC5W "u1" (by decide)

/-- Outcome of the re-add tail of the plain findMatch when both captured
entries are present: the attempt reports no match and both users are back in
the pool with their original entries. -/
theorem v1_readd_props (s : ServerState) (pool1 : SMap WaitingEntry)
    (matches1 : SMap MatchEntry) (evs : List Ev) (u c : String)
    (wu cd : WaitingEntry) (hne : c ≠ u)
    (hK : evs.filter evIsNotify = []) :
    (v1_readd s pool1 matches1 evs u c (some wu) (some cd)).matched = false ∧
    (v1_readd s pool1 matches1 evs u c (some wu) (some cd)).events.filter
      evIsNotify = [] ∧
    mget (v1_readd s pool1 matches1 evs u c (some wu) (some cd)).state.waitingUsers
      u = some wu ∧
    mget (v1_readd s pool1 matches1 evs u c (some wu) (some cd)).state.waitingUsers
      c = some cd := by
  unfold v1_readd
  refine ⟨rfl, hK, ?_, mget_mset_self _ _ _⟩
  rw [mget_mset_ne _ _ _ _ (Ne.symm hne)]
  exact mget_mset_self _ _ _

/-- C6 (amended): when the plain findMatch removes both candidates from the
pool and the post-removal liveness verification fails for either party, the
attempt fails without any match notification and BOTH parties are re-enqueued
with their original WaitingEntries (preferences and join time preserved); the
vanished party is restored to the pool as well, not dropped. -/
theorem c6_vanished_reenqueue (s : ServerState) (u c : String)
    (wu cd : WaitingEntry) (hn : keysNodup s.waitingUsers)
    (hw : mget s.waitingUsers u = some wu)
    (hs : v1_scan s u s.waitingUsers = some (c, cd))
    (hlive : (liveOk s u && liveOk s c) = false) :
    (findMatch s u).matched = false ∧
    (findMatch s u).events.filter evIsNotify = [] ∧
    mget (findMatch s u).state.waitingUsers u = some wu ∧
    mget (findMatch s u).state.waitingUsers c = some cd := by
  obtain ⟨hmem, hne⟩ := v1_scan_spec s u s.waitingUsers c cd hs
  have hcd : mget s.waitingUsers c = some cd := mget_of_mem _ _ _ hn hmem
  cases ha1 : mget s.activeUsers u with
  | none =>
    simp only [findMatch, hw, hs, ha1, hcd]
    exact v1_readd_props s _ _ _ u c wu cd hne (by simp [evIsNotify])
  | some a1 =>
    cases ha2 : mget s.activeUsers c with
    | none =>
      simp only [findMatch, hw, hs, ha1, ha2, hcd]
      exact v1_readd_props s _ _ _ u c wu cd hne (by simp [evIsNotify])
    | some a2 =>
      have hcond : (s.liveSockets.contains a1.socketId &&
          s.liveSockets.contains a2.socketId) = false := by
        have e1 : liveOk s u = s.liveSockets.contains a1.socketId := by
          simp only [liveOk, ha1]
        have e2 : liveOk s c = s.liveSockets.contains a2.socketId := by
          simp only [liveOk, ha2]
        rw [← e1, ← e2]
        exact hlive
      simp only [findMatch, hw, hs, ha1, ha2, hcd, hcond, Bool.false_eq_true,
        if_false]
      exact v1_readd_props s _ _ _ u c wu cd hne (by simp [evIsNotify])

/-- C6 is refuted as stated: the liveness verification finds that the session
of u1 has vanished, yet u1 is re-enqueued with its original entry instead of
being dropped from the pool. -/
theorem c6_counterexample :
    liveOk stC6 "u1" = false ∧
    (findMatch stC6 "u1").matched = false ∧
    mget (findMatch stC6 "u1").state.waitingUsers "u1" =
      some ⟨freeProf "A", noPrefs, "s1", 0⟩ := by
  decide

/-- Witness for C6 at the concrete vanished-session state. -/
theorem c6_vanished_reenqueue_witness :
    (findMatch stC6 "u1").matched = false ∧
    (findMatch stC6 "u1").events.filter evIsNotify = [] ∧
    mget (findMatch stC6 "u1").state.waitingUsers "u1" =
      some ⟨freeProf "A", noPrefs, "s1", 0⟩ ∧
    mget (findMatch stC6 "u1").state.waitingUsers "u2" =
      some ⟨freeProf "B", noPrefs, "s2", 0⟩ :=
  c6_vanished_reenqueue stC6 "u1" "u2" ⟨freeProf "A", noPrefs, "s1", 0⟩
    ⟨freeProf "B", noPrefs, "s2", 0⟩ (by decide) (by decide) (by decide)
    (by decide)

/-- C8 is refuted as stated: the pairing attempt stores a new Match in
activeMatches, but because the post-creation session lookup of the initiator
fails, no matchFound notification is emitted to either side. -/
theorem c8_counterexample :
    stC8.activeMatches = [] ∧
    (findMatchWithFilters stC8 "u1").state.activeMatches.length = 1 ∧
    (findMatchWithFilters stC8 "u1").events.filter evIsNotify = [] ∧
    (findMatchWithFilters stC8 "u1").matched = false := by
  decide

/-- C8 (amended): whenever a pairing attempt of either matcher reports a
match, both sessions are notified with matchFound payloads that carry the
same match identifier and the same room identifier, each payload carries the
public profile fields of the partner, and the isInitiator flag is true for
exactly the initiating side; however, a Match entry can also be created with
no notification at all when a session lookup fails after creation. -/
theorem c8_notification_payloads :
    (∀ s u, (findMatch s u).matched = true →
      ∃ wu c cd a1 a2,
        mget s.waitingUsers u = some wu ∧
        v1_scan s u s.waitingUsers = some (c, cd) ∧
        mget s.activeUsers u = some a1 ∧
        mget s.activeUsers c = some a2 ∧
        (findMatch s u).events.filter evIsNotify =
          [Ev.matchFound a1.socketId
            ⟨mkMatchId u c s.now, "room-" ++ mkMatchId u c s.now,
             pub c cd.user, true⟩,
           Ev.matchFound a2.socketId
            ⟨mkMatchId u c s.now, "room-" ++ mkMatchId u c s.now,
             pub u wu.user, false⟩]) ∧
    (∀ s u, (findMatchWithFilters s u).matched = true →
      ∃ wu c cd a1 a2,
        mget s.waitingUsers u = some wu ∧
        v3_scan s u wu s.waitingUsers = some (c, cd) ∧
        mget s.activeUsers u = some a1 ∧
        mget s.activeUsers c = some a2 ∧
        (findMatchWithFilters s u).events.filter evIsNotify =
          [Ev.matchFound a1.socketId
            ⟨mkMatchId u c s.now, "room-" ++ mkMatchId u c s.now,
             pub c cd.user, true⟩,
           Ev.matchFound a2.socketId
            ⟨mkMatchId u c s.now, "room-" ++ mkMatchId u c s.now,
             pub u wu.user, false⟩]) := by
  constructor
  · intro s u
    unfold findMatch
    split
    · intro h
      simp at h
    · rename_i wu hw
      split
      · split
        · intro h
          simp at h
        · intro h
          simp at h
      · rename_i c cd hs
        dsimp only
        split
        · rename_i a1 a2 ha1 ha2
          split
          · intro _
            refine ⟨wu, c, cd, a1, a2, hw, hs, ha1, ha2, ?_⟩
            simp [evIsNotify]
          · intro h
            simp [v1_readd] at h
        · intro h
          simp [v1_readd] at h
  · intro s u
    unfold findMatchWithFilters
    split
    · intro h
      simp at h
    · rename_i wu hw
      split
      · intro h
        simp at h
      · rename_i c cd hs
        dsimp only
        split
        · rename_i a1 a2 ha1 ha2
          intro _
          refine ⟨wu, c, cd, a1, a2, hw, hs, ha1, ha2, ?_⟩
          split_ifs <;> simp [evIsNotify]
        · intro h
          simp at h

/-- Witness for C8 on the filtered matcher at a concrete live pool. -/
theorem c8_notification_payloads_witness :
    ∃ wu c cd a1 a2,
      mget stC8W.waitingUsers "w1" = some wu ∧
      v3_scan stC8W "w1" wu stC8W.waitingUsers = some (c, cd) ∧
      mget stC8W.activeUsers "w1" = some a1 ∧
      mget stC8W.activeUsers c = some a2 ∧
      (findMatchWithFilters stC8W "w1").events.filter evIsNotify =
        [Ev.matchFound a1.socketId
          ⟨mkMatchId "w1" c stC8W.now, "room-" ++ mkMatchId "w1" c stC8W.now,
           pub c cd.user, true⟩,
         Ev.matchFound a2.socketId
          ⟨mkMatchId "w1" c stC8W.now, "room-" ++ mkMatchId "w1" c stC8W.now,
           pub "w1" wu.user, false⟩] :=
  c8_notification_payloads.2 stC8W "w1" (by decide)

/-- The plain matcher never touches the session registry. -/
theorem v1_active_eq (s : ServerState) (x : String) :
    (findMatch s x).state.activeUsers = s.activeUsers := by
  unfold findMatch
  split
  · rfl
  · split
    · split
      · rfl
      · rfl
    · dsimp only
      split
      · split
        · rfl
        · rfl
      · rfl

/-- The filtered sweep loop never touches the session registry. -/
theorem sweepGo_active (l : List String) (s : ServerState) :
    (sweepGo s l).1.activeUsers = s.activeUsers := by
  induction l generalizing s with
  | nil => rfl
  | cons uid rest ih =>
    rw [sweepGo]
    by_cases hh : mhas s.waitingUsers uid = true
    · rw [if_pos hh]
      dsimp only
      rw [ih]
      exact fmwf_active_eq s uid
    · rw [if_neg hh]
      exact ih s

/-- The filtered processMatchingQueue never touches the session registry. -/
theorem pmqFiltered_active (s : ServerState) :
    (processMatchingQueueFiltered s).1.activeUsers = s.activeUsers := by
  unfold processMatchingQueueFiltered
  split
  · rfl
  · exact sweepGo_active _ s

/-- The inner loop of the plain sweep never touches the session registry. -/
theorem v1_inner_active (l : List String) (s : ServerState)
    (proc : List String) (u1 : String) :
    (v1_sweepInner s proc u1 l).1.activeUsers = s.activeUsers := by
  induction l generalizing s proc with
  | nil => rfl
  | cons u2 rest ih =>
    rw [v1_sweepInner]
    by_cases h1 : (proc.contains u2 || !(mhas s.waitingUsers u2)) = true
    · rw [if_pos h1]
      exact ih s proc
    · rw [if_neg h1]
      split
      · split
        · dsimp only
          split
          · rfl
          · exact ih _ _
        · exact ih s proc
      · exact ih s proc

/-- The outer loop of the plain sweep never touches the session registry. -/
theorem v1_outer_active (l : List String) (s : ServerState)
    (proc : List String) :
    (v1_sweepOuter s proc l).1.activeUsers = s.activeUsers := by
  induction l generalizing s proc with
  | nil => rfl
  | cons u1 rest ih =>
    rw [v1_sweepOuter]
    by_cases h1 : (proc.contains u1 || !(mhas s.waitingUsers u1)) = true
    · rw [if_pos h1]
      exact ih s proc
    · rw [if_neg h1]
      dsimp only
      rw [ih, v1_inner_active]

/-- The plain processMatchingQueue never touches the session registry. -/
theorem pmq_active (s : ServerState) :
    (processMatchingQueue s).1.activeUsers = s.activeUsers := by
  unfold processMatchingQueue
  split
  · rfl
  · exact v1_outer_active _ s []

/-- The insert-and-match tail of the filtered enqueue never touches the
session registry. -/
theorem v3_insert_active (s : ServerState) (u : String) (ae : ActiveEntry)
    (p : Prefs) :
    (v3_insertAndMatch s u ae p).state.activeUsers = s.activeUsers := by
  unfold v3_insertAndMatch
  dsimp only
  split_ifs
  · exact fmwf_active_eq _ u
  · rw [pmqFiltered_active]
    exact fmwf_active_eq _ u
  · exact fmwf_active_eq _ u

/-- The insert-and-match tail of the plain enqueue never touches the session
registry. -/
theorem v1_insert_active (s : ServerState) (u : String) (ae : ActiveEntry)
    (p : Prefs) :
    (v1_insertAndMatch s u ae p).state.activeUsers = s.activeUsers := by
  unfold v1_insertAndMatch
  dsimp only
  split_ifs
  · exact v1_active_eq _ u
  · rw [pmq_active]
    exact v1_active_eq _ u
  · exact v1_active_eq _ u

/-- The filtered enqueue handler never touches the session registry. -/
theorem v3_join_active (s : ServerState) (u : String) (p : Prefs) :
    (joinMatchingQueueFiltered s u p).state.activeUsers = s.activeUsers := by
  unfold joinMatchingQueueFiltered
  split
  · rfl
  · split_ifs
    · rfl
    · exact v3_insert_active _ _ _ _
    · rfl
    · exact v3_insert_active _ _ _ _

/-- The plain enqueue handler never touches the session registry. -/
theorem v1_join_active (s : ServerState) (u : String) (p : Prefs) :
    (joinMatchingQueue s u p).state.activeUsers = s.activeUsers := by
  unfold joinMatchingQueue
  split
  · rfl
  · split_ifs
    · rfl
    · exact v1_insert_active _ _ _ _

/-- A run of join-queue client steps never touches the session registry. -/
theorem runEvents_join_active (l : List CEvent) :
    ∀ s : ServerState, (∀ e ∈ l, isJoinEvent e = true) →
    (runEvents s l).activeUsers = s.activeUsers := by
  induction l with
  | nil =>
    intro s _
    rfl
  | cons e rest ih =>
    intro s hall
    rw [runEvents]
    have he := hall e (List.mem_cons_self _ _)
    cases e with
    | connect u sock prof => simp [isJoinEvent] at he
    | joinQueue u p =>
      dsimp only [stepEvent]
      rw [ih _ (fun e2 he2 => hall e2 (List.mem_cons_of_mem _ he2))]
      exact v3_join_active s u p

/-- C10: no matching-core operation mutates the cached session profiles
captured at connect time. Both matchers, both sweeps and both enqueue
handlers leave the activeUsers map unchanged, any run of join-queue steps
preserves it, and the enqueue balance check reads only the cached profile:
a premium user whose cached balance is at least eight tokens passes the
check and starts searching regardless of the content of the external token
store. -/
theorem c10_cached_profile_frame :
    (∀ s u, (findMatchWithFilters s u).state.activeUsers = s.activeUsers) ∧
    (∀ s u, (findMatch s u).state.activeUsers = s.activeUsers) ∧
    (∀ s, (processMatchingQueueFiltered s).1.activeUsers = s.activeUsers) ∧
    (∀ s, (processMatchingQueue s).1.activeUsers = s.activeUsers) ∧
    (∀ s u p, (joinMatchingQueueFiltered s u p).state.activeUsers =
      s.activeUsers) ∧
    (∀ s u p, (joinMatchingQueue s u p).state.activeUsers = s.activeUsers) ∧
    (∀ (s : ServerState) (l : List CEvent),
      (∀ e ∈ l, isJoinEvent e = true) →
      (runEvents s l).activeUsers = s.activeUsers) ∧
    (∀ (s : ServerState) (u : String) (p : Prefs) (ae : ActiveEntry)
        (d : SMap DbRec),
      mget s.activeUsers u = some ae →
      ae.user.is_premium = true → 8 ≤ ae.user.tokens →
      ∃ tl, (joinMatchingQueueFiltered { s with db := d } u p).events =
        Ev.matchingStatus ae.socketId :: tl) := by
  refine ⟨fmwf_active_eq, v1_active_eq, pmqFiltered_active, pmq_active,
    v3_join_active, v1_join_active,
    fun s l h => runEvents_join_active l s h, ?_⟩
  intro s u p ae d hae hp ht
  obtain ⟨au, wus, am, rm, ls, db0, now⟩ := s
  dsimp only at hae
  simp only [joinMatchingQueueFiltered, hae, hp, if_true,
    if_neg (not_lt.mpr ht)]
  unfold v3_insertAndMatch
  dsimp only
  split_ifs
  · exact ⟨_, rfl⟩
  · exact ⟨_, rfl⟩
  · exact ⟨_, rfl⟩

/-- Witness for C10: with the stored balance exhausted, the cached balance
still passes the enqueue check and the user starts searching. -/
theorem c10_cached_profile_frame_witness :
    ∃ tl, (joinMatchingQueueFiltered { stC10 with db := dbExhausted }
      "g" noPrefs).events = Ev.matchingStatus "q1" :: tl :=
  c10_cached_profile_frame.2.2.2.2.2.2.2 stC10 "g" noPrefs ⟨"q1", premProf⟩
    dbExhausted (by decide) (by decide) (by decide)
